import Mathlib

/-!
Verification development for the core IMAP retrieval pipeline of go-imapgrab
(file core/imap_client.go).  Go functions are shallowly embedded as pure Lean
functions; goroutine interleavings are made explicit by passing the sequence
of events (raw messages delivered by the transport, results of polling the
cancellation predicate, success or failure of the underlying protocol call)
as parameters.
-/

/-! ## The completion-signal primitive (type `once`, core/imap_client.go) -/

/-- Model of Go type `once`: wraps `sync.Once` plus a queryable `called` flag.
`doneFlag` models the internal flag of `sync.Once` (has `Do` run its action);
`called` is the queryable field set by the inner hook installed by `newOnce`;
`hookRuns` instruments how many times the wrapped action has executed. -/
structure once where
  called : Bool
  doneFlag : Bool
  hookRuns : Nat
  deriving Repr, DecidableEq

/-- Model of `newOnce`: fresh state, wrapped action never run. -/
def newOnce : once := { called := false, doneFlag := false, hookRuns := 0 }

/-- Model of `(*once).call`, i.e. `o.Do(o.hook)`: `sync.Once.Do` executes the
hook only on the first invocation; the hook installed by `newOnce` sets
`called` to true and then runs the wrapped action. -/
def once.call (o : once) : once :=
  if o.doneFlag then o
  else { called := true, doneFlag := true, hookRuns := o.hookRuns + 1 }

/-! ## Connection policy (`newImapClient`, core/imap_client.go lines 37-50) -/

/-- What `newImapClient` does with an address: which dial primitive (if any)
is invoked.  `tls` models `client.DialTLS`, `plain` models `client.Dial`,
`policyError` models returning the "not allowing insecure auth" error
without dialing. -/
inductive ConnAttempt where
  | tls
  | plain
  | policyError
  deriving Repr, DecidableEq

/-- Model of Go `strings.HasPrefix s pre`: `pre` is a leading fragment of
`s`.  Go strings are embedded as `List Char`. -/
def startsWithChars : List Char → List Char → Bool
  | _, [] => true
  | [], _ :: _ => false
  | c :: s, p :: ps => if c = p then startsWithChars s ps else false

/-- Model of `newImapClient` (core/imap_client.go): if `insecure` is false,
dial TLS; otherwise refuse unless the address starts with "127.0.0.1:". -/
def newImapClient (addr : List Char) (insecure : Bool) : ConnAttempt :=
  if !insecure then ConnAttempt.tls
  else if !(startsWithChars addr ("127.0.0.1:".data)) then ConnAttempt.policyError
  else ConnAttempt.plain

/-- Whether a connection attempt was actually made (a dial primitive ran). -/
def dialAttempted : ConnAttempt → Bool
  | ConnAttempt.policyError => false
  | _ => true

/-! ## Streaming retrieval (`streamingRetrieval`, core/imap_client.go 142-202)

The two goroutines (the fetch task running `UidFetch` and the translation
task forwarding raw messages into the output channel) are modelled by an
explicit interpreter.  Its parameters supply the environment:
`fetchErr` — whether `UidFetch` eventually returns an error;
`ints` — the successive values returned by polling `interrupted()`
(one poll per loop iteration; an exhausted list means "never true again");
`raws` — the raw messages the transport delivers on `orgMessageChan`, in
delivery order (`none` models the nil entries the transport sometimes
sends).  The interpreter follows the canonical interleaving: the fetch
task completes (incrementing the error count on failure and firing the
completion signal) once every delivered raw message has been handed over. -/

/-- The quiesced final state of one retrieval: what was sent on
`translatedMessageChan`, how often each task incremented the shared error
counter, how often the completion-signal hook (`wg.Done`) actually ran, and
whether the output channel has been closed. -/
structure Outcome (α : Type) where
  output : List α
  errTrans : Nat
  errFetch : Nat
  hookRuns : Nat
  closed : Bool
  deriving Repr, DecidableEq

/-- Final state after the translation loop observes `interrupted() = true`
while the completion signal has not fired yet: the translation task
increments the error counter once, fires the signal and exits (closing the
output channel via `defer`); the background fetch task later finishes,
increments the counter on error, and its own `already.call()` is a no-op. -/
def interruptedOutcome (α : Type) (fetchErr : Bool) : Outcome α :=
  { output := []
    errTrans := 1
    errFetch := if fetchErr then 1 else 0
    hookRuns := 1
    closed := true }

/-- Final state after all raw messages have been consumed: `UidFetch`
returns (closing `orgMessageChan`), the fetch task increments the error
counter on error and fires the completion signal; the translation loop then
sees `already.called`, exits and closes the output channel. -/
def fetchDoneOutcome (α : Type) (fetchErr : Bool) : Outcome α :=
  { output := []
    errTrans := 0
    errFetch := if fetchErr then 1 else 0
    hookRuns := 1
    closed := true }

/-- Record that the translation task forwarded one more message to the
output channel before the rest of the run unfolded. -/
def pushOutput {α : Type} (m : α) (o : Outcome α) : Outcome α :=
  { o with output := m :: o.output }

/-- The translation loop (core/imap_client.go lines 182-199): while the
completion signal has not fired, poll `interrupted()`; on true increment
the error counter and fire the signal; otherwise receive the next raw
message, dropping nil values and forwarding the rest. -/
def transLoop {α : Type} (fetchErr : Bool) : List Bool → List (Option α) → Outcome α
  | ints, [] =>
    if ints.headD false then interruptedOutcome α fetchErr
    else fetchDoneOutcome α fetchErr
  | ints, none :: rest =>
    if ints.headD false then interruptedOutcome α fetchErr
    else transLoop fetchErr ints.tail rest
  | ints, some m :: rest =>
    if ints.headD false then interruptedOutcome α fetchErr
    else pushOutput m (transLoop fetchErr ints.tail rest)

/-- The UID validation loop at the top of `streamingRetrieval` (lines
148-153): scan the ids, aborting on the first one that is `<= 0`. -/
def checkUids : List Int → Bool
  | [] => true
  | u :: rest => if u ≤ 0 then false else checkUids rest

/-- Model of `streamingRetrieval`: validate the UIDs; on failure return the
error with no channels and no fetch started.  On success the fetch task and
translation task run as `transLoop` describes; the second component counts
how many times `UidFetch` was invoked. -/
def streamingRetrieval {α : Type} (uids : List Int) (fetchErr : Bool)
    (ints : List Bool) (raws : List (Option α)) :
    Except String (Outcome α) × Nat :=
  if checkUids uids then (Except.ok (transLoop fetchErr ints raws), 1)
  else (Except.error "detected a UID<=0, aborting", 0)

/-- Predicate mirroring `transLoop`: the run observes `interrupted() = true`
at some loop iteration before the fetch task has completed. -/
def cancelsRun {α : Type} : List Bool → List (Option α) → Bool
  | ints, [] => ints.headD false
  | ints, _ :: rest =>
    if ints.headD false then true
    else cancelsRun ints.tail rest

/-! ## Decimal rendering (Go `fmt`'s `%d` verb) -/

/-- Decimal digits (most significant first) of a natural number, with
enough fuel; mirrors the digit production of Go `fmt`'s `%d` verb. -/
def natDecimalAux : Nat → Nat → List Char
  | 0, _ => []
  | fuel + 1, n =>
    if n = 0 then []
    else natDecimalAux fuel (n / 10) ++ [Nat.digitChar (n % 10)]

/-- Decimal rendering of a natural number (`%d` for a nonnegative value):
the usual representation without leading zeros, with `0` rendered as "0". -/
def natDecimal (n : Nat) : List Char :=
  if n = 0 then ['0'] else natDecimalAux n n

/-- Decimal rendering of a Go `int` (`%d`): a leading minus sign for
negative values. -/
def intDecimal (i : Int) : List Char :=
  if i < 0 then '-' :: natDecimal i.natAbs else natDecimal i.toNat

/-! ## Authentication (`authenticateClient`, core/imap_client.go 62-85) -/

/-- Model of Go struct `IMAPConfig` (fields used by `authenticateClient`);
string fields are embedded as `List Char`. -/
structure IMAPConfig where
  Server : List Char
  Port : Nat
  User : List Char
  Password : List Char
  Insecure : Bool
  deriving Repr, DecidableEq

/-- Observable effect of one `authenticateClient` call: its result plus how
many times a dial primitive ran and how many times `Login` was invoked on
the protocol client. -/
structure AuthTrace where
  result : Except String Unit
  dialCalls : Nat
  loginCalls : Nat
  deriving Repr

/-- Model of `authenticateClient`: fail fast on an empty password; then
connect via `newImapClient` (TLS dial failure and policy refusal are both
connection errors, `connOk` says whether an attempted dial succeeds); then
log in (`loginOk` says whether the server accepts the credentials). -/
def authenticateClient (config : IMAPConfig) (connOk loginOk : Bool) : AuthTrace :=
  if config.Password.length = 0 then
    { result := Except.error "password not set", dialCalls := 0, loginCalls := 0 }
  else
    let serverWithPort := config.Server ++ ':' :: natDecimal config.Port
    match newImapClient serverWithPort config.Insecure with
    | ConnAttempt.policyError =>
      { result := Except.error "not allowing insecure auth for non-localhost address"
        dialCalls := 0, loginCalls := 0 }
    | _ =>
      if !connOk then
        { result := Except.error "cannot connect", dialCalls := 1, loginCalls := 0 }
      else if !loginOk then
        { result := Except.error "cannot log in", dialCalls := 1, loginCalls := 1 }
      else
        { result := Except.ok (), dialCalls := 1, loginCalls := 1 }

/-! ## Folder listing (`getFolderList`, core/imap_client.go 87-99) -/

/-- The slice of `*imap.MailboxInfo` fields `getFolderList` reads. -/
structure MailboxInfo where
  Name : String
  deriving Repr, DecidableEq

/-- The drain loop of `getFolderList`: `for m := range mailboxes` appending
`m.Name` to the accumulated slice until the producer closes the channel. -/
def drainFolders (acc : List String) : List MailboxInfo → List String
  | [] => acc
  | m :: rest => drainFolders (acc ++ [m.Name]) rest

/-- Model of `getFolderList`: the producer goroutine runs `List("", "*", ch)`,
delivering `infos` in order and recording `listErr`; the caller drains the
channel until closed and only then returns the names together with the
recorded error. -/
def getFolderList (infos : List MailboxInfo) (listErr : Option String) :
    List String × Option String :=
  (drainFolders [] infos, listErr)

/-! ## Message identity (`uid`, `uidFolder`, `uidExt`, core/imap_client.go) -/

/-- Model of Go struct `uidExt`: validity marker of the mailbox plus the
message UID inside it (both Go `int`, hence `Int` here). -/
structure uidExt where
  folder : Int
  msg : Int
  deriving Repr, DecidableEq

/-- Model of `uidExt.String`: `fmt.Sprintf("%d/%d", u.folder, u.msg)`. -/
def uidExt.String (u : uidExt) : String :=
  String.mk (intDecimal u.folder ++ '/' :: intDecimal u.msg)

/-! ## UID enumeration (`getAllMessageUUIDs`, core/imap_client.go 223-258) -/

/-- The slice of `*imap.MailboxStatus` fields the core reads: `Messages`
(message count) and `UidValidity` (validity marker), both `uint32`. -/
structure MailboxStatus where
  Messages : Nat
  UidValidity : Nat
  deriving Repr, DecidableEq

/-- The collection loop of `getAllMessageUUIDs`: each non-nil raw message
becomes `uidExt{folder: mbox.UidValidity, msg: m.Uid}`; nil entries are
skipped.  Raw messages are modelled by their `Uid` field (`uint32`). -/
def collectUUIDs (validity : Nat) : List (Option Nat) → List uidExt
  | [] => []
  | none :: rest => collectUUIDs validity rest
  | some u :: rest => { folder := (validity : Int), msg := (u : Int) } :: collectUUIDs validity rest

/-- Model of `getAllMessageUUIDs`: for an empty mailbox return immediately
with no error and no fetch; otherwise one producer goroutine runs `Fetch`
over the range `[1, Messages]`, delivering `raws` and recording `fetchErr`,
while the caller collects the translated ids.  The final component counts
how many times `Fetch` was invoked. -/
def getAllMessageUUIDs (mbox : MailboxStatus) (raws : List (Option Nat))
    (fetchErr : Option String) : (List uidExt × Option String) × Nat :=
  if mbox.Messages = 0 then (([], none), 0)
  else ((collectUUIDs mbox.UidValidity raws, fetchErr), 1)

/-! ## Helper lemmas -/

/-- The validation scan fails whenever some id in the list is nonpositive. -/
lemma checkUids_eq_false {uids : List Int} {u : Int} (hu : u ∈ uids) (hle : u ≤ 0) :
    checkUids uids = false := by
  induction uids with
  | nil => cases hu
  | cons v rest ih =>
    rcases List.mem_cons.mp hu with rfl | hmem
    · simp [checkUids, hle]
    · by_cases hv : v ≤ 0
      · simp [checkUids, hv]
      · simp [checkUids, hv, ih hmem]

/-- Once the completion signal has fired, further `call` invocations leave
its state unchanged. -/
lemma once_call_iterate_fixed (k : Nat) :
    once.call^[k] { called := true, doneFlag := true, hookRuns := 1 } =
      ({ called := true, doneFlag := true, hookRuns := 1 } : once) := by
  induction k with
  | zero => rfl
  | succ k ih => rw [Function.iterate_succ_apply]; simpa [once.call] using ih

/-! ## Claims -/

/-- C1: if any message identifier is `<= 0`, `streamingRetrieval` returns the
validation error immediately: no channels are produced (the result carries no
`Outcome`) and `UidFetch` is never invoked (the invocation count is 0),
regardless of how many identifiers are invalid or where they occur. -/
theorem streamingRetrieval_rejects_nonpositive {α : Type} (uids : List Int)
    (fetchErr : Bool) (ints : List Bool) (raws : List (Option α))
    (h : ∃ u ∈ uids, u ≤ 0) :
    streamingRetrieval uids fetchErr ints raws =
      (Except.error "detected a UID<=0, aborting", 0) := by
  obtain ⟨u, hu, hle⟩ := h
  simp [streamingRetrieval, checkUids_eq_false hu hle]

/-- Witness for C1 at the concrete input `uids = [3, 0, 5]`. -/
theorem streamingRetrieval_rejects_nonpositive_witness :
    (∃ u ∈ [(3 : Int), 0, 5], u ≤ 0) ∧
      streamingRetrieval (α := Nat) [(3 : Int), 0, 5] false [] [] =
        (Except.error "detected a UID<=0, aborting", 0) :=
  ⟨⟨0, by decide, by decide⟩,
    streamingRetrieval_rejects_nonpositive [(3 : Int), 0, 5] false [] []
      ⟨0, by decide, by decide⟩⟩

/-- C2: however many times (at least one) the fire operation `call` is
invoked on a fresh completion signal, the wrapped action runs exactly once,
and after the first invocation the `called` query reports true and stays
true under every further invocation. -/
theorem once_exactly_once (n : Nat) (h : 1 ≤ n) :
    (once.call^[n] newOnce).hookRuns = 1 ∧ (once.call^[n] newOnce).called = true := by
  obtain ⟨k, rfl⟩ : ∃ k, n = k + 1 := ⟨n - 1, by omega⟩
  rw [Function.iterate_succ_apply]
  have h1 : once.call newOnce = { called := true, doneFlag := true, hookRuns := 1 } := rfl
  rw [h1, once_call_iterate_fixed]
  exact ⟨rfl, rfl⟩

/-- Witness for C2 at three invocations. -/
theorem once_exactly_once_witness :
    1 ≤ 3 ∧
      ((once.call^[3] newOnce).hookRuns = 1 ∧ (once.call^[3] newOnce).called = true) :=
  ⟨by decide, once_exactly_once 3 (by decide)⟩

/-- C6: for a mailbox whose message count is 0, `getAllMessageUUIDs` returns
an empty sequence and no error, and `Fetch` is never invoked. -/
theorem getAllMessageUUIDs_empty_mailbox (mbox : MailboxStatus)
    (raws : List (Option Nat)) (fetchErr : Option String)
    (h : mbox.Messages = 0) :
    getAllMessageUUIDs mbox raws fetchErr = (([], none), 0) := by
  simp [getAllMessageUUIDs, h]

/-- Witness for C6 at a concrete empty mailbox. -/
theorem getAllMessageUUIDs_empty_mailbox_witness :
    ({ Messages := 0, UidValidity := 42 } : MailboxStatus).Messages = 0 ∧
      getAllMessageUUIDs { Messages := 0, UidValidity := 42 }
        [some 1, none] (some "boom") = (([], none), 0) :=
  ⟨rfl, getAllMessageUUIDs_empty_mailbox _ _ _ rfl⟩

/-- C8: with an empty password, `authenticateClient` fails with the
authentication error without contacting the server: no dial is attempted and
`Login` is never called, for every user name and connection outcome. -/
theorem authenticateClient_empty_password (config : IMAPConfig)
    (connOk loginOk : Bool) (h : config.Password = []) :
    authenticateClient config connOk loginOk =
      { result := Except.error "password not set", dialCalls := 0, loginCalls := 0 } := by
  simp [authenticateClient, h]

/-- Witness for C8 at a concrete configuration with an empty password. -/
theorem authenticateClient_empty_password_witness :
    ({ Server := "example.org".data, Port := 143, User := "alice".data,
       Password := [], Insecure := false } : IMAPConfig).Password = [] ∧
      authenticateClient
        { Server := "example.org".data, Port := 143, User := "alice".data,
          Password := [], Insecure := false } true true =
        { result := Except.error "password not set", dialCalls := 0, loginCalls := 0 } :=
  ⟨rfl, authenticateClient_empty_password _ true true rfl⟩

/-- The drain loop of `getFolderList` appends the folder names in delivery
order after the accumulator. -/
lemma drainFolders_eq (infos : List MailboxInfo) :
    ∀ acc, drainFolders acc infos = acc ++ infos.map MailboxInfo.Name := by
  induction infos with
  | nil => intro acc; simp [drainFolders]
  | cons m rest ih => intro acc; simp [drainFolders, ih]

/-- C9: `getFolderList` drains the channel until the producer closes it and
only then reports the producer's recorded error: the returned names are the
folder names in delivery order, the returned error equals whatever the
producer recorded, and an empty listing yields an empty list with no
error. -/
theorem getFolderList_drains_then_reports (infos : List MailboxInfo)
    (listErr : Option String) :
    (getFolderList infos listErr).1 = infos.map MailboxInfo.Name ∧
      (getFolderList infos listErr).2 = listErr ∧
      getFolderList [] none = ([], none) := by
  refine ⟨?_, rfl, rfl⟩
  simp [getFolderList, drainFolders_eq]

/-- The collection loop keeps exactly the non-nil raw entries, translated,
in delivery order. -/
lemma collectUUIDs_eq_filterMap (validity : Nat) (raws : List (Option Nat)) :
    collectUUIDs validity raws =
      raws.filterMap
        (fun r => r.map (fun u => ({ folder := (validity : Int), msg := (u : Int) } : uidExt))) := by
  induction raws with
  | nil => rfl
  | cons r rest ih =>
    cases r with
    | none => simp [collectUUIDs, ih]
    | some u => simp [collectUUIDs, ih]

/-- C7: for a non-empty mailbox, `getAllMessageUUIDs` turns each non-nil raw
entry into `uidExt{folder := status.UidValidity, msg := entry.Uid}` in
delivery order and silently discards nil entries (they do not become
errors); at validity marker 42 with delivered ids 1, 2, 3 the result is
42/1, 42/2, 42/3. -/
theorem getAllMessageUUIDs_translates (mbox : MailboxStatus)
    (raws : List (Option Nat)) (fetchErr : Option String)
    (h : mbox.Messages ≠ 0) :
    getAllMessageUUIDs mbox raws fetchErr =
      ((raws.filterMap
          (fun r => r.map
            (fun u => ({ folder := (mbox.UidValidity : Int), msg := (u : Int) } : uidExt))),
        fetchErr), 1) ∧
      getAllMessageUUIDs { Messages := 3, UidValidity := 42 }
          [some 1, some 2, some 3] none =
        (([{ folder := 42, msg := 1 }, { folder := 42, msg := 2 },
           { folder := 42, msg := 3 }], none), 1) := by
  constructor
  · simp [getAllMessageUUIDs, h, collectUUIDs_eq_filterMap]
  · decide

/-- Witness for C7 at a mailbox holding two messages with a nil entry
interleaved by the transport. -/
theorem getAllMessageUUIDs_translates_witness :
    ({ Messages := 2, UidValidity := 7 } : MailboxStatus).Messages ≠ 0 ∧
      getAllMessageUUIDs { Messages := 2, UidValidity := 7 }
          [some 5, none, some 9] none =
        (([some 5, none, some 9].filterMap
            (fun r => r.map (fun u =>
              ({ folder := ((7 : Nat) : Int), msg := (u : Int) } : uidExt))),
          none), 1) ∧
      getAllMessageUUIDs { Messages := 3, UidValidity := 42 }
          [some 1, some 2, some 3] none =
        (([{ folder := 42, msg := 1 }, { folder := 42, msg := 2 },
           { folder := 42, msg := 3 }], none), 1) :=
  ⟨by decide,
    getAllMessageUUIDs_translates { Messages := 2, UidValidity := 7 }
      [some 5, none, some 9] none (by decide)⟩

/-- A run that observes an interruption ends with the output channel
closed, a single error increment from the translation task, and the
completion-signal hook having run exactly once. -/
lemma transLoop_cancelled {α : Type} (fetchErr : Bool) (ints : List Bool)
    (raws : List (Option α)) (hc : cancelsRun ints raws = true) :
    (transLoop fetchErr ints raws).errTrans = 1 ∧
      (transLoop fetchErr ints raws).hookRuns = 1 ∧
      (transLoop fetchErr ints raws).closed = true := by
  induction raws generalizing ints with
  | nil =>
    rw [cancelsRun] at hc
    rw [transLoop, if_pos hc]
    exact ⟨rfl, rfl, rfl⟩
  | cons r rest ih =>
    rw [cancelsRun] at hc
    cases r with
    | none =>
      by_cases hh : ints.headD false = true
      · rw [transLoop, if_pos hh]
        exact ⟨rfl, rfl, rfl⟩
      · rw [transLoop, if_neg hh]
        rw [if_neg hh] at hc
        exact ih ints.tail hc
    | some m =>
      by_cases hh : ints.headD false = true
      · rw [transLoop, if_pos hh]
        exact ⟨rfl, rfl, rfl⟩
      · rw [transLoop, if_neg hh]
        rw [if_neg hh] at hc
        obtain ⟨h1, h2, h3⟩ := ih ints.tail hc
        exact ⟨h1, h2, h3⟩

/-- C3: whenever the cancellation predicate turns true mid-retrieval (before
the fetch task has completed), the retrieval still hands back its channels,
the translation task closes the output channel, the shared error counter
receives exactly one increment from the translation task, and the completion
signal fires exactly once — the fetch task's later firing is a no-op. -/
theorem streamingRetrieval_cancellation {α : Type} (uids : List Int)
    (fetchErr : Bool) (ints : List Bool) (raws : List (Option α))
    (hv : checkUids uids = true) (hc : cancelsRun ints raws = true) :
    ∃ o : Outcome α,
      streamingRetrieval uids fetchErr ints raws = (Except.ok o, 1) ∧
        o.closed = true ∧ o.errTrans = 1 ∧ o.hookRuns = 1 := by
  refine ⟨transLoop fetchErr ints raws, ?_, ?_, ?_, ?_⟩
  · simp [streamingRetrieval, hv]
  · exact (transLoop_cancelled fetchErr ints raws hc).2.2
  · exact (transLoop_cancelled fetchErr ints raws hc).1
  · exact (transLoop_cancelled fetchErr ints raws hc).2.1

/-- Witness for C3: two messages are forwarded, then the third poll of the
cancellation predicate returns true. -/
theorem streamingRetrieval_cancellation_witness :
    checkUids [(1 : Int), 2, 3] = true ∧
      cancelsRun (α := Nat) [false, false, true] [some 10, some 11, some 12] = true ∧
      ∃ o : Outcome Nat,
        streamingRetrieval [(1 : Int), 2, 3] false [false, false, true]
            [some 10, some 11, some 12] = (Except.ok o, 1) ∧
          o.closed = true ∧ o.errTrans = 1 ∧ o.hookRuns = 1 :=
  ⟨by decide, by decide,
    streamingRetrieval_cancellation [(1 : Int), 2, 3] false [false, false, true]
      [some 10, some 11, some 12] (by decide) (by decide)⟩

/-- Whatever the interleaving, the messages forwarded to the output channel
are a subsequence of the non-nil raw results in delivery order. -/
lemma transLoop_output_sublist {α : Type} (fetchErr : Bool) (ints : List Bool)
    (raws : List (Option α)) :
    List.Sublist (transLoop fetchErr ints raws).output (raws.filterMap id) := by
  induction raws generalizing ints with
  | nil =>
    rw [transLoop]
    by_cases hh : ints.headD false = true
    · rw [if_pos hh]; exact List.nil_sublist _
    · rw [if_neg hh]; exact List.nil_sublist _
  | cons r rest ih =>
    cases r with
    | none =>
      rw [transLoop]
      by_cases hh : ints.headD false = true
      · rw [if_pos hh]; exact List.nil_sublist _
      · rw [if_neg hh]; simpa using ih ints.tail
    | some m =>
      rw [transLoop]
      by_cases hh : ints.headD false = true
      · rw [if_pos hh]; exact List.nil_sublist _
      · rw [if_neg hh]
        have hs := List.Sublist.cons₂ m (ih ints.tail)
        simpa [pushOutput] using hs

/-- C4: for positive identifiers, under the transport contract that at most
one raw result arrives per requested id and no message is delivered twice
(the non-nil raw results number at most `|uids|` and are pairwise distinct),
the output stream of `streamingRetrieval` yields at most `|uids|` entries —
fewer when nil placeholders are dropped or the run is cancelled early — and
no entry is duplicated. -/
theorem streamingRetrieval_output_bounded {α : Type} (uids : List Int)
    (fetchErr : Bool) (ints : List Bool) (raws : List (Option α))
    (hv : checkUids uids = true)
    (hlen : (raws.filterMap id).length ≤ uids.length)
    (hnd : (raws.filterMap id).Nodup) :
    ∃ o : Outcome α,
      streamingRetrieval uids fetchErr ints raws = (Except.ok o, 1) ∧
        o.output.length ≤ uids.length ∧ o.output.Nodup := by
  refine ⟨transLoop fetchErr ints raws, by simp [streamingRetrieval, hv], ?_, ?_⟩
  · exact le_trans (List.Sublist.length_le (transLoop_output_sublist fetchErr ints raws)) hlen
  · exact List.Nodup.sublist (transLoop_output_sublist fetchErr ints raws) hnd

/-- Witness for C4: three requested ids, two delivered results and one nil
placeholder. -/
theorem streamingRetrieval_output_bounded_witness :
    checkUids [(1 : Int), 2, 3] = true ∧
      (([some 5, none, some 7] : List (Option Nat)).filterMap id).length ≤
        [(1 : Int), 2, 3].length ∧
      (([some 5, none, some 7] : List (Option Nat)).filterMap id).Nodup ∧
      ∃ o : Outcome Nat,
        streamingRetrieval [(1 : Int), 2, 3] false []
            [some 5, none, some 7] = (Except.ok o, 1) ∧
          o.output.length ≤ [(1 : Int), 2, 3].length ∧ o.output.Nodup :=
  ⟨by decide, by decide, by decide,
    streamingRetrieval_output_bounded [(1 : Int), 2, 3] false []
      [some 5, none, some 7] (by decide) (by decide) (by decide)⟩

/-- `strings.HasPrefix` accepts any extension of the prefix itself. -/
lemma startsWithChars_append (pre rest : List Char) :
    startsWithChars (pre ++ rest) pre = true := by
  induction pre with
  | nil => simp [startsWithChars]
  | cons c cs ih => simp [startsWithChars, ih]

/-- If an address of shape `host ++ ":" ++ tail` (with no colon inside
either host) passes a `host2 ++ ":"` prefix check, the hosts coincide. -/
lemma startsWithChars_colon_host (h2 : List Char) :
    ∀ h1 p, ':' ∉ h1 → ':' ∉ h2 →
      startsWithChars (h1 ++ ':' :: p) (h2 ++ [':']) = true → h1 = h2 := by
  induction h2 with
  | nil =>
    intro h1 p hne1 _ hpre
    cases h1 with
    | nil => rfl
    | cons c cs =>
      exfalso
      rw [List.cons_append, List.nil_append, startsWithChars] at hpre
      by_cases hcc : c = ':'
      · exact hne1 (hcc ▸ List.mem_cons_self c cs)
      · rw [if_neg hcc] at hpre; cases hpre
  | cons d ds ih =>
    intro h1 p hne1 hne2 hpre
    cases h1 with
    | nil =>
      exfalso
      rw [List.nil_append, List.cons_append, startsWithChars] at hpre
      by_cases hdd : (':' : Char) = d
      · exact hne2 (hdd ▸ List.mem_cons_self d ds)
      · rw [if_neg hdd] at hpre; cases hpre
    | cons c cs =>
      rw [List.cons_append, List.cons_append, startsWithChars] at hpre
      by_cases hcd : c = d
      · rw [if_pos hcd] at hpre
        have htail :=
          ih cs p (fun hm => hne1 (List.mem_cons_of_mem c hm))
            (fun hm => hne2 (List.mem_cons_of_mem d hm)) hpre
        rw [hcd, htail]
      · rw [if_neg hcd] at hpre; cases hpre

/-- The loopback prefix literal splits as host part plus colon. -/
lemma loopbackData_eq : "127.0.0.1:".data = "127.0.0.1".data ++ [':'] := by decide

/-- With the insecure flag set, `newImapClient` reduces to the prefix
check against the loopback literal. -/
lemma newImapClient_insecure_eq (addr : List Char) :
    newImapClient addr true =
      (if startsWithChars addr ("127.0.0.1:".data) then ConnAttempt.plain
       else ConnAttempt.policyError) := by
  cases hb : startsWithChars addr ("127.0.0.1:".data) <;> simp [newImapClient, hb]

/-- C5: for an address `host:port` (no colon inside the host): with the
insecure flag unset a TLS transport is dialed regardless of host; with the
insecure flag set and a non-loopback host, `newImapClient` fails with the
policy error before any connection attempt; with the insecure flag set and
the loopback host `127.0.0.1`, a plain connection attempt proceeds. -/
theorem newImapClient_insecure_policy (host port : List Char) (hcolon : ':' ∉ host) :
    newImapClient (host ++ ':' :: port) false = ConnAttempt.tls ∧
      (host ≠ "127.0.0.1".data →
        newImapClient (host ++ ':' :: port) true = ConnAttempt.policyError ∧
          dialAttempted (newImapClient (host ++ ':' :: port) true) = false) ∧
      (host = "127.0.0.1".data →
        newImapClient (host ++ ':' :: port) true = ConnAttempt.plain ∧
          dialAttempted (newImapClient (host ++ ':' :: port) true) = true) := by
  refine ⟨by simp [newImapClient], ?_, ?_⟩
  · intro hne
    have hsw : startsWithChars (host ++ ':' :: port) ("127.0.0.1:".data) = false := by
      rw [loopbackData_eq]
      by_cases hs : startsWithChars (host ++ ':' :: port) ("127.0.0.1".data ++ [':']) = true
      · exact absurd
          (startsWithChars_colon_host "127.0.0.1".data host port hcolon (by decide) hs) hne
      · simpa using hs
    rw [newImapClient_insecure_eq, hsw]
    exact ⟨rfl, rfl⟩
  · intro heq
    subst heq
    have hsw : startsWithChars ("127.0.0.1".data ++ ':' :: port) ("127.0.0.1:".data) = true := by
      rw [loopbackData_eq, show ("127.0.0.1".data ++ ':' :: port) =
        ("127.0.0.1".data ++ [':']) ++ port by simp]
      exact startsWithChars_append _ _
    rw [newImapClient_insecure_eq, hsw]
    exact ⟨rfl, rfl⟩

/-- Witness for C5 at the spec's concrete addresses `203.0.113.5:143`
(refused) and `127.0.0.1:143` (plain dial proceeds). -/
theorem newImapClient_insecure_policy_witness :
    (':' ∉ "203.0.113.5".data) ∧
      ("203.0.113.5".data ≠ "127.0.0.1".data) ∧
      (newImapClient ("203.0.113.5".data ++ ':' :: "143".data) true = ConnAttempt.policyError ∧
        dialAttempted (newImapClient ("203.0.113.5".data ++ ':' :: "143".data) true) = false) :=
  ⟨by decide, by decide,
    (newImapClient_insecure_policy "203.0.113.5".data "143".data (by decide)).2.1 (by decide)⟩

/-- Numeric value of a digit character; left inverse of `Nat.digitChar` on
the decimal digits. -/
def charDigit (c : Char) : Nat := c.toNat - 48

/-- Numeric value of a big-endian decimal digit string. -/
def decValue (l : List Char) : Nat :=
  l.foldl (fun acc c => 10 * acc + charDigit c) 0

lemma charDigit_digitChar {d : Nat} (h : d < 10) :
    charDigit (Nat.digitChar d) = d := by
  interval_cases d <;> decide

lemma decValue_append_digit (l : List Char) (c : Char) :
    decValue (l ++ [c]) = 10 * decValue l + charDigit c := by
  simp [decValue, List.foldl_append]

lemma decValue_natDecimalAux : ∀ fuel n, n ≤ fuel →
    decValue (natDecimalAux fuel n) = n := by
  intro fuel
  induction fuel with
  | zero =>
    intro n hn
    have h0 : n = 0 := by omega
    subst h0
    rfl
  | succ fuel ih =>
    intro n hn
    rw [natDecimalAux]
    by_cases h0 : n = 0
    · rw [if_pos h0]
      simpa [decValue] using h0.symm
    · rw [if_neg h0, decValue_append_digit]
      have hdiv : n / 10 ≤ fuel := by
        have := Nat.div_lt_self (Nat.pos_of_ne_zero h0) (show 1 < 10 by omega)
        omega
      rw [ih (n / 10) hdiv, charDigit_digitChar (Nat.mod_lt _ (by omega))]
      omega

lemma decValue_natDecimal (n : Nat) : decValue (natDecimal n) = n := by
  rw [natDecimal]
  by_cases h0 : n = 0
  · rw [if_pos h0]
    subst h0
    decide
  · rw [if_neg h0]
    exact decValue_natDecimalAux n n le_rfl

/-- The decimal rendering of a natural number is injective. -/
lemma natDecimal_injective : Function.Injective natDecimal := by
  intro a b h
  have hv := congrArg decValue h
  rwa [decValue_natDecimal, decValue_natDecimal] at hv

lemma mem_natDecimalAux : ∀ fuel n c, c ∈ natDecimalAux fuel n →
    ∃ d, d < 10 ∧ c = Nat.digitChar d := by
  intro fuel
  induction fuel with
  | zero =>
    intro n c hc
    rw [natDecimalAux] at hc
    cases hc
  | succ fuel ih =>
    intro n c hc
    rw [natDecimalAux] at hc
    by_cases h0 : n = 0
    · rw [if_pos h0] at hc; cases hc
    · rw [if_neg h0] at hc
      rcases List.mem_append.mp hc with h1 | h2
      · exact ih _ c h1
      · exact ⟨n % 10, Nat.mod_lt _ (by omega), List.mem_singleton.mp h2⟩

/-- Every character of the decimal rendering is a digit, never the slash
separator. -/
lemma natDecimal_ne_slash (n : Nat) (c : Char) (hc : c ∈ natDecimal n) :
    c ≠ '/' := by
  rw [natDecimal] at hc
  by_cases h0 : n = 0
  · rw [if_pos h0] at hc
    rw [List.mem_singleton.mp hc]
    decide
  · rw [if_neg h0] at hc
    obtain ⟨d, hd, rfl⟩ := mem_natDecimalAux n n c hc
    interval_cases d <;> decide

lemma intDecimal_nonneg {i : Int} (h : 0 ≤ i) :
    intDecimal i = natDecimal i.toNat := by
  rw [intDecimal, if_neg (by omega : ¬ i < 0)]

/-- Splitting at a separator absent from both left parts is unambiguous. -/
lemma append_sep_inj : ∀ (as cs bs ds : List Char),
    '/' ∉ as → '/' ∉ cs → as ++ '/' :: bs = cs ++ '/' :: ds →
    as = cs ∧ bs = ds := by
  intro as
  induction as with
  | nil =>
    intro cs bs ds _ hcs h
    cases cs with
    | nil => simpa using h
    | cons c cs2 =>
      exfalso
      rw [List.nil_append, List.cons_append] at h
      injection h with h1 _
      exact hcs (by rw [h1]; exact List.mem_cons_self c cs2)
  | cons a as2 ih =>
    intro cs bs ds has hcs h
    cases cs with
    | nil =>
      exfalso
      rw [List.cons_append, List.nil_append] at h
      injection h with h1 _
      exact has (by rw [← h1]; exact List.mem_cons_self a as2)
    | cons c cs2 =>
      rw [List.cons_append, List.cons_append] at h
      injection h with h1 h2
      obtain ⟨hac, hbd⟩ := ih cs2 bs ds
        (fun hm => has (List.mem_cons_of_mem a hm))
        (fun hm => hcs (List.mem_cons_of_mem c hm)) h2
      exact ⟨by rw [h1, hac], hbd⟩

/-- C10: on identifiers with a positive message id and a nonnegative folder
marker, the canonical rendering `"<folder>/<msg>"` of `uidExt.String` is
injective: two renderings are equal exactly when the identifiers are equal,
so the string is a sound deduplication key. -/
theorem uidExt_String_injective (u v : uidExt)
    (hum : 0 < u.msg) (huf : 0 ≤ u.folder) (hvm : 0 < v.msg) (hvf : 0 ≤ v.folder) :
    (uidExt.String u = uidExt.String v ↔ u = v) := by
  constructor
  · intro h
    have hl : intDecimal u.folder ++ '/' :: intDecimal u.msg
        = intDecimal v.folder ++ '/' :: intDecimal v.msg := by
      have hdata := congrArg String.data h
      simpa [uidExt.String] using hdata
    rw [intDecimal_nonneg huf, intDecimal_nonneg hvf,
      intDecimal_nonneg (le_of_lt hum), intDecimal_nonneg (le_of_lt hvm)] at hl
    obtain ⟨h1, h2⟩ := append_sep_inj _ _ _ _
      (fun hm => natDecimal_ne_slash _ _ hm rfl)
      (fun hm => natDecimal_ne_slash _ _ hm rfl) hl
    have hf : u.folder = v.folder := by
      have := natDecimal_injective h1
      omega
    have hm2 : u.msg = v.msg := by
      have := natDecimal_injective h2
      omega
    cases u
    cases v
    simp_all
  · intro h
    rw [h]

/-- Witness for C10 at the identifiers 42/7 and 42/8: distinct identifiers,
hence distinct renderings. -/
theorem uidExt_String_injective_witness :
    (0 : Int) < 7 ∧ (0 : Int) ≤ 42 ∧
      (uidExt.String { folder := 42, msg := 7 } =
          uidExt.String { folder := 42, msg := 8 } ↔
        ({ folder := 42, msg := 7 } : uidExt) = { folder := 42, msg := 8 }) :=
  ⟨by decide, by decide,
    uidExt_String_injective { folder := 42, msg := 7 } { folder := 42, msg := 8 }
      (by decide) (by decide) (by decide) (by decide)⟩
